import Mathlib

/-!
Shallow embedding of the submission extraction/validation pipeline of
`gitlab_fetch.py` (with the shared formatter of `main.py`), together with
theorems checking the natural-language specification against it.

Python dictionaries holding submission records are embedded as a structure
with `Option`-typed fields (`none` = key absent); `dict.get(k, default)`
becomes `Option.getD`.  Python string truthiness (`x or y`) is embedded
explicitly.  Strings are processed as their character lists.
-/

/-- Python `x or y` on strings: `y` when `x` is falsy (empty), else `x`. -/
def pyOr (x y : String) : String := if x = "" then y else x

/-- Truthiness of an optional string (Python `not x`): `none` and `""` are falsy. -/
def pyFalsyStr : Option String → Bool
  | none => true
  | some s => s = ""

/-- Truthiness of an optional numeric id (Python `not x`): `None` and `0` are falsy. -/
def pyFalsyNat : Option Nat → Bool
  | none => true
  | some n => n = 0

/-- Characters matched by the regex class `\s` (ASCII whitespace). -/
def isSpaceChar (c : Char) : Bool :=
  c = ' ' || c = '\t' || c = '\n' || c = '\r' || c = '\x0b' || c = '\x0c'

/-- The character class `[^\s<>"]` of the direct-URL pattern. -/
def inUrlClass (c : Char) : Bool :=
  !(isSpaceChar c || c = '<' || c = '>' || c = '"')

/-- The character class `[^\s<>")\]]` of the `/uploads/` pattern. -/
def inUploadClass (c : Char) : Bool :=
  inUrlClass c && !(c = ')' || c = ']')

/-- Case-insensitive character comparison (regex `re.IGNORECASE`, ASCII). -/
def lowerEq (a b : Char) : Bool := a.toLower = b.toLower

/-- Match a literal pattern case-insensitively against the front of the text;
returns the consumed original characters and the remaining text. -/
def matchCI : List Char → List Char → Option (List Char × List Char)
  | [], cs => some ([], cs)
  | _ :: _, [] => none
  | p :: ps, c :: cs =>
    if lowerEq c p then
      match matchCI ps cs with
      | some (m, r) => some (c :: m, r)
      | none => none
    else none

/-- The fixed extension alternation `(?:png|jpg|jpeg|gif|mp4|mov|webm|avi)`,
in the order the regex tries the alternatives. -/
def extPatterns : List (List Char) :=
  ["png", "jpg", "jpeg", "gif", "mp4", "mov", "webm", "avi"].map String.data

/-- Try the extension alternatives in order (first match wins, as in regex
alternation). -/
def matchExt (cs : List Char) : Option (List Char × List Char) :=
  (extPatterns.foldl (fun acc p =>
    match acc with
    | some r => some r
    | none => matchCI p cs) none)

/-- Lazy `cls+?\.EXT`: having consumed the (reversed) class characters `acc`
(at least one), check for `.` plus extension before consuming one more class
character; mirrors the regex engine's minimal expansion of a lazy quantifier. -/
def lazyGo (cls : Char → Bool) (acc : List Char) : List Char → Option (List Char × List Char)
  | [] => none
  | c :: cs =>
    if c = '.' then
      match matchExt cs with
      | some (ec, rest) => some (acc.reverse ++ '.' :: ec, rest)
      | none => if cls c then lazyGo cls (c :: acc) cs else none
    else if cls c then lazyGo cls (c :: acc) cs else none

/-- Lazy `cls+?\.EXT` from the start of the text: at least one class character
is consumed before the first `.`-extension check. -/
def lazyStart (cls : Char → Bool) : List Char → Option (List Char × List Char)
  | [] => none
  | c :: cs => if cls c then lazyGo cls [c] cs else none

/-- Match a literal character sequence (case-sensitive). -/
def matchLit : List Char → List Char → Option (List Char)
  | [], cs => some cs
  | _ :: _, [] => none
  | p :: ps, c :: cs => if c = p then matchLit ps cs else none

/-- Attempt the pattern `https?://[^\s<>"]+?\.(?:png|...)` (IGNORECASE) at the
start of the text; `s?` is greedy with backtracking.  Returns the matched
substring and the remaining text. -/
def matchUrlAt (cs : List Char) : Option (List Char × List Char) :=
  match matchCI "http".data cs with
  | none => none
  | some (m1, r1) =>
    let withSep : List Char → List Char → Option (List Char × List Char) :=
      fun pre r =>
        match matchLit "://".data r with
        | none => none
        | some r2 =>
          match lazyStart inUrlClass r2 with
          | none => none
          | some (body, rest) => some (pre ++ "://".data ++ body, rest)
    match matchCI "s".data r1 with
    | some (sc, r2) =>
      match withSep (m1 ++ sc) r2 with
      | some res => some res
      | none => withSep m1 r1
    | none => withSep m1 r1

/-- Attempt the pattern `/uploads/[^\s<>")\]]+?\.(?:png|...)` (IGNORECASE) at
the start of the text. -/
def matchUploadAt (cs : List Char) : Option (List Char × List Char) :=
  match matchCI "/uploads/".data cs with
  | none => none
  | some (m1, r1) =>
    match lazyStart inUploadClass r1 with
    | none => none
    | some (body, rest) => some (m1 ++ body, rest)

/-- Lazy scan to the literal `](`  (the `.*?\]\(` part of the markdown-image
pattern); `.` does not cross a newline.  Returns the text after `](`. -/
def toBrackParen : List Char → Option (List Char)
  | ']' :: '(' :: r => some r
  | c :: r => if c = '\n' then none else toBrackParen r
  | [] => none

/-- Lazy capture up to the literal `)` (the `(.*?)\)` part); `.` does not
cross a newline.  Returns the captured characters and the text after `)`. -/
def toCloseParen : List Char → Option (List Char × List Char)
  | ')' :: r => some ([], r)
  | c :: r =>
    if c = '\n' then none
    else
      match toCloseParen r with
      | some (cap, rest) => some (c :: cap, rest)
      | none => none
  | [] => none

/-- Attempt the markdown-image pattern `!\[.*?\]\((.*?)\)` at the start of the
text; returns the capture group (the target) and the remaining text. -/
def matchMdAt : List Char → Option (List Char × List Char)
  | '!' :: '[' :: r =>
    match toBrackParen r with
    | none => none
    | some r2 =>
      match toCloseParen r2 with
      | none => none
      | some (cap, rest) => some (cap, rest)
  | _ => none

/-- `re.findall` driver: try the matcher at every position, left to right,
resuming after each (non-overlapping) match.  Fueled; every successful match
consumes at least one character, so fuel `length + 1` is enough. -/
def scanWith (m : List Char → Option (List Char × List Char)) :
    Nat → List Char → List String
  | 0, _ => []
  | _, [] => []
  | fuel + 1, c :: rest =>
    match m (c :: rest) with
    | some (res, rest2) => String.mk res :: scanWith m fuel rest2
    | none => scanWith m fuel rest

/-- Matches of rule (1): markdown image syntax `!\[.*?\]\((.*?)\)`, the capture
group (target, regardless of extension). -/
def markdown_image_matches (t : String) : List String :=
  scanWith matchMdAt (t.data.length + 1) t.data

/-- Matches of rule (2): bare `https?://` URLs ending in a media extension. -/
def direct_url_matches (t : String) : List String :=
  scanWith matchUrlAt (t.data.length + 1) t.data

/-- Matches of rule (3): internal `/uploads/` paths ending in a media extension. -/
def upload_path_matches (t : String) : List String :=
  scanWith matchUploadAt (t.data.length + 1) t.data

/-- `has_media_attachments` (gitlab_fetch.py:155-180): empty text short-circuits;
otherwise the three pattern scans are concatenated in order and
`has_media = len(media_urls) > 0`. -/
def has_media_attachments (text : String) : Bool × List String :=
  if text = "" then (false, [])
  else
    let media := markdown_image_matches text ++ direct_url_matches text ++
      upload_path_matches text
    (decide (0 < media.length), media)

/-- Digit run: `takeWhile isDigit`. -/
def digitRun (cs : List Char) : List Char := cs.takeWhile (fun c => c.isDigit)

/-- Numeric value of a digit string (Python `int`). -/
def natOfDigits (cs : List Char) : Nat :=
  cs.foldl (fun n c => n * 10 + (c.toNat - '0'.toNat)) 0

/-- `re.findall` for the pattern `#(\d+)`: every `#` followed by one or more
digits, greedy, non-overlapping, captured values in order of appearance. -/
def scanIssueRefs : Nat → List Char → List Nat
  | 0, _ => []
  | _, [] => []
  | fuel + 1, c :: rest =>
    if c = '#' then
      let ds := digitRun rest
      if ds = [] then scanIssueRefs fuel rest
      else natOfDigits ds :: scanIssueRefs fuel (rest.drop ds.length)
    else scanIssueRefs fuel rest

/-- `has_issue_references` (gitlab_fetch.py:183-204). -/
def has_issue_references (text : String) : Bool × List Nat :=
  if text = "" then (false, [])
  else
    let ms := scanIssueRefs (text.data.length + 1) text.data
    if ms ≠ [] then (true, ms) else (false, [])

/-- A submission record (the dictionaries built in `fetch_submissions`);
`none` embeds an absent key. -/
structure Submission where
  student : Option String := none
  repository : Option String := none
  repo_name : Option String := none
  owner_name : Option String := none
  source_repository : Option String := none
  submission_type : Option String := none
  submission_date : Option String := none
  issue_number : Option Nat := none
  issue_title : Option String := none
  issue_display : Option String := none
  issue_type : Option String := none
  comment_id : Option Nat := none
  comment_text : Option String := none
  pr_number : Option Nat := none
  pr_title : Option String := none
  pr_description : Option String := none
  description : Option String := none
  repo_type : Option String := none
  is_codepath_submission : Option Bool := none
  addressed_issues : List Nat := []
  is_valid : Option Bool := none
  validity_reasons : List String := []
  validity_status : Option String := none
deriving DecidableEq

/-- Python `repr` of an int list, as produced by an f-string (`"[1, 2]"`). -/
def natListRepr (ns : List Nat) : String :=
  "[" ++ String.intercalate ", " (ns.map toString) ++ "]"

/-- The reason string `f"References issue(s) {issue_nums} in description"`. -/
def refs_reason (ns : List Nat) : String :=
  "References issue(s) " ++ natListRepr ns ++ " in description"

/-- The reason string for a comment linked to an issue (`getting_started`
issues get the GS wording). -/
def link_reason (s : Submission) (n : Nat) : String :=
  if s.issue_type.getD "regular" = "getting_started" then
    "Linked to GS issue #" ++ toString n
  else
    "Linked to issue #" ++ toString n

/-- The reason string `f"Linked to {len(addressed_issues)} issue(s) in database"`. -/
def db_link_reason (k : Nat) : String :=
  "Linked to " ++ toString k ++ " issue(s) in database"

/-- Effective text validated for a COMMENT:
`submission.get('comment_text', '') or submission.get('description', '')`. -/
def comment_text_of (s : Submission) : String :=
  pyOr (s.comment_text.getD "") (s.description.getD "")

/-- Effective text validated for a PULL_REQUEST:
`submission.get('pr_description', '') or submission.get('description', '')`. -/
def pr_text_of (s : Submission) : String :=
  pyOr (s.pr_description.getD "") (s.description.getD "")

/-- The accumulation of `is_valid` and `validity_reasons` in
`validate_submission` (gitlab_fetch.py:207-270). -/
def validate_core (s : Submission) : Bool × List String :=
  let ty := s.submission_type.getD ""
  if ty = "COMMENT" then
    let text := comment_text_of s
    let hm := (has_media_attachments text).1
    let r1 := if hm then ["Has attachment"] else ["Missing attachment"]
    let r2 := if (has_issue_references text).1 then
        [refs_reason (has_issue_references text).2] else []
    let r3 := match s.issue_number with
      | some n => if n ≠ 0 then [link_reason s n] else []
      | none => []
    (hm, r1 ++ r2 ++ r3)
  else if ty = "PULL_REQUEST" then
    let text := pr_text_of s
    let hm := (has_media_attachments text).1
    let hr := (has_issue_references text).1
    let r1 := if hm then ["Has attachment"] else ["Missing attachment"]
    let r2 := if hr then [refs_reason (has_issue_references text).2]
      else ["No issue references found"]
    let r3 := if s.addressed_issues ≠ [] then
        [db_link_reason s.addressed_issues.length] else []
    (hm && hr, r1 ++ r2 ++ r3)
  else (true, [])

/-- `validate_submission` (gitlab_fetch.py:207-276): fills `is_valid`,
`validity_reasons` and `validity_status`, leaving all other fields unchanged. -/
def validate_submission (s : Submission) : Submission :=
  let r := validate_core s
  { s with is_valid := some r.1, validity_reasons := r.2,
           validity_status := some (if r.1 then "VALID" else "INVALID") }

/-- A calendar date (the result of Python `datetime.date()`: the literal
year/month/day fields, no timezone conversion). -/
structure PyDate where
  year : Nat
  month : Nat
  day : Nat
deriving DecidableEq

/-- A Python `datetime`: naive when `tzoffset = none`, aware with a fixed
UTC offset in minutes otherwise. -/
structure PyDateTime where
  year : Nat
  month : Nat
  day : Nat
  hour : Nat
  minute : Nat
  second : Nat
  microsecond : Nat
  tzoffset : Option Int := none
deriving DecidableEq

/-- Python `calendar`-style leap year test. -/
def isLeap (y : Nat) : Bool :=
  (y % 4 = 0 && y % 100 ≠ 0) || y % 400 = 0

/-- Days in a month, as validated by the `datetime` constructor. -/
def daysInMonth (y m : Nat) : Nat :=
  if m = 2 then (if isLeap y then 29 else 28)
  else if m = 4 || m = 6 || m = 9 || m = 11 then 30
  else 31

/-- `str.split(sep)` with a one-character separator, on character lists
(the empty string splits to `[""]`, as in Python). -/
def splitOnChar (sep : Char) : List Char → List (List Char)
  | [] => [[]]
  | c :: r =>
    let rest := splitOnChar sep r
    if c = sep then [] :: rest
    else
      match rest with
      | h :: t => (c :: h) :: t
      | [] => [[c]]

/-- All characters are ASCII digits (and the list is non-empty). -/
def allDigits (cs : List Char) : Bool := cs ≠ [] && cs.all (fun c => c.isDigit)

/-- Model of `datetime.strptime(s, '%Y-%m-%d')`, restricted to its date part:
`%Y` is exactly four digits, `%m` and `%d` one or two digits, and the
constructed date must be valid (month 1-12, day within the month, year >= 1). -/
def strptime_Ymd (s : String) : Option PyDate :=
  match splitOnChar '-' s.data with
  | [ys, ms, ds] =>
    if ys.length = 4 && allDigits ys && allDigits ms && ms.length ≤ 2 &&
        allDigits ds && ds.length ≤ 2 then
      let y := natOfDigits ys
      let m := natOfDigits ms
      let d := natOfDigits ds
      if 1 ≤ y && 1 ≤ m && m ≤ 12 && 1 ≤ d && d ≤ daysInMonth y m then
        some ⟨y, m, d⟩
      else none
    else none
  | _ => none

/-- Parse two digit characters as a number. -/
def twoDigits (a b : Char) : Option Nat :=
  if a.isDigit && b.isDigit then some (natOfDigits [a, b]) else none

/-- Model of the time component accepted by `datetime.fromisoformat`:
`HH`, `HH:MM`, `HH:MM:SS` or `HH:MM:SS.ffffff` (3- or 6-digit fraction),
with field range validation. -/
def parse_isotime_base (cs : List Char) : Option (Nat × Nat × Nat × Nat) :=
  let valid := fun (h mi se : Nat) => h ≤ 23 && mi ≤ 59 && se ≤ 59
  match cs with
  | [h1, h2] => do
    let h ← twoDigits h1 h2
    if valid h 0 0 then some (h, 0, 0, 0) else none
  | [h1, h2, ':', m1, m2] => do
    let h ← twoDigits h1 h2
    let mi ← twoDigits m1 m2
    if valid h mi 0 then some (h, mi, 0, 0) else none
  | [h1, h2, ':', m1, m2, ':', s1, s2] => do
    let h ← twoDigits h1 h2
    let mi ← twoDigits m1 m2
    let se ← twoDigits s1 s2
    if valid h mi se then some (h, mi, se, 0) else none
  | h1 :: h2 :: ':' :: m1 :: m2 :: ':' :: s1 :: s2 :: '.' :: frac => do
    let h ← twoDigits h1 h2
    let mi ← twoDigits m1 m2
    let se ← twoDigits s1 s2
    if valid h mi se && allDigits frac &&
        (frac.length = 3 || frac.length = 6) then
      let us := if frac.length = 3 then natOfDigits frac * 1000
        else natOfDigits frac
      some (h, mi, se, us)
    else none
  | _ => none

/-- Split the time string at the first `+` or `-` (the offset sign), returning
the base part and, when a sign is found, the sign and the offset substring. -/
def splitAtSign : List Char → List Char × Option (Char × List Char)
  | [] => ([], none)
  | c :: r =>
    if c = '+' || c = '-' then ([], some (c, r))
    else
      let (base, tz) := splitAtSign r
      (c :: base, tz)

/-- Model of the timezone suffix accepted by `fromisoformat` after the sign,
restricted to the `HH:MM` shape this pipeline produces (`Z` is already
rewritten to `+00:00` before parsing); offset hours/minutes are validated. -/
def parse_isotz (sign : Char) (cs : List Char) : Option Int :=
  match cs with
  | [h1, h2, ':', m1, m2] => do
    let h ← twoDigits h1 h2
    let mi ← twoDigits m1 m2
    if h ≤ 23 && mi ≤ 59 then
      let total : Int := (h * 60 + mi : Nat)
      some (if sign = '-' then -total else total)
    else none
  | _ => none

/-- Model of `datetime.fromisoformat`: ten-character `YYYY-MM-DD` date part
(with validity checks), then optionally a single separator character and a
time part, itself optionally followed by a signed `HH:MM` offset. -/
def parse_isoformat (cs : List Char) : Option PyDateTime :=
  match cs with
  | y1 :: y2 :: y3 :: y4 :: '-' :: m1 :: m2 :: '-' :: d1 :: d2 :: rest =>
    if [y1, y2, y3, y4, m1, m2, d1, d2].all (fun c => c.isDigit) then
      let y := natOfDigits [y1, y2, y3, y4]
      let m := natOfDigits [m1, m2]
      let d := natOfDigits [d1, d2]
      if 1 ≤ y && 1 ≤ m && m ≤ 12 && 1 ≤ d && d ≤ daysInMonth y m then
        match rest with
        | [] => some ⟨y, m, d, 0, 0, 0, 0, none⟩
        | _sep :: timecs =>
          let (base, tzpart) := splitAtSign timecs
          match tzpart with
          | none => (parse_isotime_base base).map
              (fun (h, mi, se, us) => ⟨y, m, d, h, mi, se, us, none⟩)
          | some (sign, tzcs) => do
            let (h, mi, se, us) ← parse_isotime_base base
            let off ← parse_isotz sign tzcs
            some ⟨y, m, d, h, mi, se, us, some off⟩
      else none
    else none
  | _ => none

/-- `str.replace('Z', '+00:00')` (all occurrences). -/
def replaceZ : List Char → List Char
  | [] => []
  | 'Z' :: r => '+' :: '0' :: '0' :: ':' :: '0' :: '0' :: replaceZ r
  | c :: r => c :: replaceZ r

/-- The shared date-string parsing of `filter_submissions_by_date` and
`get_student_date_ranges`: ISO format via `fromisoformat` (with `Z` rewritten
to `+00:00`) when the string contains a `T`, else `strptime('%Y-%m-%d')`
(a naive midnight datetime). -/
def parse_submission_datetime (ds : String) : Option PyDateTime :=
  if ds.data.contains 'T' then parse_isoformat (replaceZ ds.data)
  else (strptime_Ymd ds).map (fun d => ⟨d.year, d.month, d.day, 0, 0, 0, 0, none⟩)

/-- `datetime.date()`: the literal date component. -/
def dateOf (dt : PyDateTime) : PyDate := ⟨dt.year, dt.month, dt.day⟩

/-- Strict lexicographic comparison of number lists. -/
def lexNatLt : List Nat → List Nat → Bool
  | x :: xs, y :: ys =>
    if x < y then true else if y < x then false else lexNatLt xs ys
  | _, _ => false

/-- Python `date` strict comparison (lexicographic on year, month, day). -/
def dateLt (a b : PyDate) : Bool :=
  lexNatLt [a.year, a.month, a.day] [b.year, b.month, b.day]

/-- Days from a fixed epoch for a civil date (for absolute-instant comparison
of aware datetimes); standard civil-from-days inverse. -/
def daysFromCivil (y m d : Nat) : Int :=
  let y' : Int := if m ≤ 2 then (y : Int) - 1 else (y : Int)
  let era : Int := (if y' ≥ 0 then y' else y' - 399) / 400
  let yoe : Int := y' - era * 400
  let mp : Int := ((m : Int) + 9) % 12
  let doy : Int := (153 * mp + 2) / 5 + (d : Int) - 1
  let doe : Int := yoe * 365 + yoe / 4 - yoe / 100 + doy
  era * 146097 + doe - 719468

/-- Absolute instant of an aware datetime, in microseconds since the epoch,
subtracting the UTC offset. -/
def dtInstant (dt : PyDateTime) (off : Int) : Int :=
  ((daysFromCivil dt.year dt.month dt.day) * 86400 +
    (dt.hour : Int) * 3600 + (dt.minute : Int) * 60 + (dt.second : Int)) * 1000000 +
    (dt.microsecond : Int) - off * 60000000

/-- Naive `datetime` strict comparison: lexicographic on all fields. -/
def dtNaiveLt (a b : PyDateTime) : Bool :=
  lexNatLt [a.year, a.month, a.day, a.hour, a.minute, a.second, a.microsecond]
    [b.year, b.month, b.day, b.hour, b.minute, b.second, b.microsecond]

/-- Python `a < b` on datetimes: naive pairs compare field-wise, aware pairs
compare absolute instants, and a naive/aware mix raises `TypeError`
(embedded as `.error`). -/
def pyLtDT (a b : PyDateTime) : Except Unit Bool :=
  match a.tzoffset, b.tzoffset with
  | none, none => .ok (dtNaiveLt a b)
  | some x, some y => .ok (decide (dtInstant a x < dtInstant b y))
  | _, _ => .error ()

/-- The per-submission parse step shared by the filter and the aggregator:
`submission.get('submission_date')` must be truthy and then parse. -/
def parse_entry (s : Submission) : Option PyDateTime :=
  match s.submission_date with
  | none => none
  | some ds => if ds = "" then none else parse_submission_datetime ds

/-- The start-bound gate of `filter_submissions_by_date`: a falsy bound is
skipped; a given bound is parsed with `strptime` inside the `try` block, so an
unparseable bound raises (`.error`, dropping the submission); otherwise the
submission is dropped iff its date precedes the bound. -/
def startGate (d : PyDate) (sb : Option String) : Except Unit Bool :=
  if pyFalsyStr sb then .ok true
  else
    match sb with
    | none => .ok true
    | some ss =>
      match strptime_Ymd ss with
      | none => .error ()
      | some sd => .ok (!dateLt d sd)

/-- The end-bound gate: symmetric, dropping the submission iff its date is
after the bound. -/
def endGate (d : PyDate) (eb : Option String) : Except Unit Bool :=
  if pyFalsyStr eb then .ok true
  else
    match eb with
    | none => .ok true
    | some es =>
      match strptime_Ymd es with
      | none => .error ()
      | some ed => .ok (!dateLt ed d)

/-- Whether one loop iteration of `filter_submissions_by_date` appends the
submission: date present and parseable, then both gates pass (an exception in
either gate is caught and the submission skipped). -/
def keep_submission (sb eb : Option String) (s : Submission) : Bool :=
  match parse_entry s with
  | none => false
  | some dt =>
    match startGate (dateOf dt) sb with
    | .error _ => false
    | .ok false => false
    | .ok true =>
      match endGate (dateOf dt) eb with
      | .error _ => false
      | .ok keep => keep

/-- `filter_submissions_by_date` (gitlab_fetch.py:279-329): with two falsy
bounds the input list is returned unchanged, otherwise the kept submissions
are collected in order. -/
def filter_submissions_by_date (subs : List Submission)
    (sb eb : Option String) : List Submission :=
  if pyFalsyStr sb && pyFalsyStr eb then subs
  else subs.filter (keep_submission sb eb)

/-- Per-student aggregate of `get_student_date_ranges`. -/
structure StudentInfo where
  earliest : PyDateTime
  latest : PyDateTime
  count : Nat
deriving DecidableEq

/-- Association-list lookup (Python `dict` access by key). -/
def alistLookup {α : Type} (k : String) : List (String × α) → Option α
  | [] => none
  | (k', v) :: rest => if k' = k then some v else alistLookup k rest

/-- Association-list update of the first occurrence of a key. -/
def alistSet {α : Type} (k : String) (v : α) : List (String × α) → List (String × α)
  | [] => []
  | (k', v') :: rest =>
    if k' = k then (k', v) :: rest else (k', v') :: alistSet k v rest

/-- `submission.get('student', 'unknown')`. -/
def pyStudent (s : Submission) : String := s.student.getD "unknown"

/-- The body of the aggregation loop acting on one entry: `count += 1`, then
`if submission_date < earliest` and `if submission_date > latest`, where a
`TypeError` from the first comparison (caught by the surrounding `except`)
skips both updates and one from the second skips the `latest` update. -/
def code_update (i : StudentInfo) (d : PyDateTime) : StudentInfo :=
  match pyLtDT d i.earliest with
  | .error _ => { i with count := i.count + 1 }
  | .ok ltE =>
    match pyLtDT i.latest d with
    | .error _ =>
      { earliest := if ltE then d else i.earliest, latest := i.latest,
        count := i.count + 1 }
    | .ok gtL =>
      { earliest := if ltE then d else i.earliest,
        latest := if gtL then d else i.latest, count := i.count + 1 }

/-- One iteration of `get_student_date_ranges` (gitlab_fetch.py:344-373):
skip on missing/unparseable date; otherwise initialize the student's entry if
absent (`earliest = latest = date, count = 0`) and run the update body. -/
def gsdr_step (A : List (String × StudentInfo)) (s : Submission) :
    List (String × StudentInfo) :=
  match parse_entry s with
  | none => A
  | some d =>
    let st := pyStudent s
    match alistLookup st A with
    | none => A ++ [(st, code_update ⟨d, d, 0⟩ d)]
    | some i => alistSet st (code_update i d) A

/-- `get_student_date_ranges` (gitlab_fetch.py:332-375), the dictionary as an
insertion-ordered association list. -/
def get_student_date_ranges (subs : List Submission) :
    List (String × StudentInfo) :=
  subs.foldl gsdr_step []

/-- Spec-level running minimum: replaced only on a successful strict
less-than comparison, so the first occurrence wins ties. -/
def spec_min (e x : PyDateTime) : PyDateTime :=
  match pyLtDT x e with
  | .ok true => x
  | _ => e

/-- Spec-level running maximum: replaced only on a successful strict
greater-than comparison, so the first occurrence wins ties. -/
def spec_max (l x : PyDateTime) : PyDateTime :=
  match pyLtDT l x with
  | .ok true => x
  | _ => l

/-- Modelled from the spec (§4.4): per-student summary over the student's
parsed dates in submission order; `count` is the number of contributing
submissions, `earliest`/`latest` are running min/max under strict
comparison with first-occurrence-wins-ties. -/
def summarize_student_spec : List PyDateTime → Option StudentInfo
  | [] => none
  | d :: ds => some ⟨ds.foldl spec_min d, ds.foldl spec_max d, ds.length + 1⟩

/-- The parsed dates contributed by one student, in submission order
(submissions with missing or unparseable dates excluded). -/
def student_parsed_dates (st : String) (subs : List Submission) :
    List PyDateTime :=
  subs.filterMap (fun s => if pyStudent s = st then parse_entry s else none)

/-- Last `/`-separated segment of a path (`path.split('/')[-1]`). -/
def lastSegment (r : String) : String :=
  String.mk ((splitOnChar '/' r.data).getLastD [])

/-- A merge request as returned by the API (ids may be absent). -/
structure MergeRequestRec where
  iid : Nat
  title : String
  description : Option String := none
  created_at : String
  source_project_id : Option Nat := none
  target_project_id : Option Nat := none
deriving DecidableEq

/-- An issue note (comment) as returned by the API. -/
structure NoteRec where
  system : Bool
  author_username : String
  body : String
  created_at : String
  id : Nat
deriving DecidableEq

/-- An issue with its fetched notes. -/
structure IssueRec where
  iid : Nat
  title : String
  description : String := ""
  notes : List NoteRec := []
deriving DecidableEq

/-- A fork record with the per-fork API responses the extractor walks
(issues with notes, the fork's merge requests, and the merge requests found
in the master project coming from this fork). -/
structure ForkRec where
  owner_username : Option String := none
  namespace_name : Option String := none
  creator_username : Option String := none
  path_with_namespace : Option String := none
  id : Option Nat := none
  issues : List IssueRec := []
  merge_requests : List MergeRequestRec := []
  master_mrs_from_fork : List MergeRequestRec := []
deriving DecidableEq

/-- The master-project context of a `fetch_submissions` run: the master
project path, its id, and its fetched issues. -/
structure MasterCtx where
  master_project : String
  master_project_id : Option Nat := none
  master_issues : List IssueRec := []
deriving DecidableEq

/-- Owner attribution (gitlab_fetch.py:494-511):
`fork.get('owner', {}).get('username', 'unknown')`, then — only when that
yields the sentinel `'unknown'` — namespace name, creator username, and the
first path segment when the path has more than one segment. -/
def resolve_fork_owner (fork : ForkRec) : String :=
  let o := fork.owner_username.getD "unknown"
  if o = "unknown" then
    match fork.namespace_name with
    | some nm => nm
    | none =>
      match fork.creator_username with
      | some cu => cu
      | none =>
        match fork.path_with_namespace with
        | some p =>
          let parts := splitOnChar '/' p.data
          if parts.length > 1 then String.mk (parts.headD []) else o
        | none => o
  else o

/-- The self-merge condition `source_id == target_id` (Python `==`, where
two absent ids are equal). -/
def isSelfMR (mr : MergeRequestRec) : Bool :=
  mr.source_project_id = mr.target_project_id

/-- The to-master condition `target_id == master_project_id`. -/
def isToMasterMR (masterId : Option Nat) (mr : MergeRequestRec) : Bool :=
  mr.target_project_id = masterId

/-- The `if`/`elif` partition loop over a fork's merge requests
(gitlab_fetch.py:639-651). -/
def partition_mrs (masterId : Option Nat) (mrs : List MergeRequestRec) :
    List MergeRequestRec × List MergeRequestRec :=
  mrs.foldl (fun p mr =>
    if isSelfMR mr then (p.1 ++ [mr], p.2)
    else if isToMasterMR masterId mr then (p.1, p.2 ++ [mr])
    else p) ([], [])

/-- The submission dictionary built for a self-merge request
(gitlab_fetch.py:657-672). -/
def mk_self_mr_submission (fork_owner fork_path repo_name : String)
    (mr : MergeRequestRec) : Submission :=
  { student := some fork_owner
    repository := some fork_path
    repo_name := some repo_name
    owner_name := some fork_owner
    source_repository := some fork_path
    submission_type := some "PULL_REQUEST"
    submission_date := some mr.created_at
    pr_number := some mr.iid
    pr_title := some mr.title
    pr_description := some (mr.description.getD "")
    repo_type := some "student_fork"
    is_codepath_submission := some false
    addressed_issues := [] }

/-- The submission dictionary built for a merge request targeting the master
project (gitlab_fetch.py:679-695 and, identically, 707-723): `repository` is
rewritten to the master project path while `source_repository` keeps the fork
path. -/
def mk_master_mr_submission (master_project fork_owner fork_path
    repo_name : String) (mr : MergeRequestRec) : Submission :=
  { student := some fork_owner
    repository := some master_project
    repo_name := some repo_name
    owner_name := some fork_owner
    source_repository := some fork_path
    submission_type := some "PULL_REQUEST"
    submission_date := some mr.created_at
    pr_number := some mr.iid
    pr_title := some mr.title
    pr_description := some (mr.description.getD "")
    repo_type := some "codepath_repo"
    is_codepath_submission := some true
    addressed_issues := [] }

/-- Processing of a fork's merge-request list (gitlab_fetch.py:630-699):
partition, then emit validated self-merge submissions followed by validated
to-master submissions. -/
def process_fork_mrs (master_project fork_owner fork_path repo_name : String)
    (masterId : Option Nat) (mrs : List MergeRequestRec) : List Submission :=
  let p := partition_mrs masterId mrs
  p.1.map (fun mr => validate_submission
      (mk_self_mr_submission fork_owner fork_path repo_name mr)) ++
    p.2.map (fun mr => validate_submission
      (mk_master_mr_submission master_project fork_owner fork_path repo_name mr))

/-- The non-system notes authored by the student (case-insensitive username
match), in order (gitlab_fetch.py:549-555). -/
def studentNotes (fork_owner : String) (notes : List NoteRec) : List NoteRec :=
  notes.filter (fun note =>
    !note.system && note.author_username.toLower = fork_owner.toLower)

/-- The COMMENT submission for a student's note on a fork issue
(gitlab_fetch.py:557-573). -/
def mk_fork_comment_submission (fork_owner fork_path repo_name : String)
    (issue : IssueRec) (note : NoteRec) : Submission :=
  { student := some fork_owner
    repository := some fork_path
    repo_name := some repo_name
    owner_name := some fork_owner
    source_repository := some fork_path
    submission_type := some "COMMENT"
    submission_date := some note.created_at
    issue_number := some issue.iid
    issue_title := some issue.title
    issue_display := some ("#" ++ toString issue.iid)
    comment_id := some note.id
    comment_text := some note.body
    repo_type := some "student_fork"
    is_codepath_submission := some false
    addressed_issues := [] }

/-- The COMMENT submission for a student's note on a master-project issue
(gitlab_fetch.py:608-624). -/
def mk_master_comment_submission (master_project fork_owner fork_path
    repo_name : String) (issue : IssueRec) (note : NoteRec) : Submission :=
  { student := some fork_owner
    repository := some master_project
    repo_name := some repo_name
    owner_name := some fork_owner
    source_repository := some fork_path
    submission_type := some "COMMENT"
    submission_date := some note.created_at
    issue_number := some issue.iid
    issue_title := some issue.title
    issue_display := some ("#" ++ toString issue.iid)
    comment_id := some note.id
    comment_text := some note.body
    repo_type := some "codepath_repo"
    is_codepath_submission := some true
    addressed_issues := [] }

/-- The per-fork body of the extraction loop (gitlab_fetch.py:494-727):
resolve the owner, skip the fork when its id is falsy, then emit validated
fork-issue comments, master-issue comments (when the master id is truthy),
the partitioned fork merge requests, and the master-repo merge requests from
this fork (when the master id is truthy). -/
def process_fork (ctx : MasterCtx) (fork : ForkRec) : List Submission :=
  let fork_owner := resolve_fork_owner fork
  let fork_path := fork.path_with_namespace.getD "unknown"
  if pyFalsyNat fork.id then []
  else
    let repo_name := lastSegment ctx.master_project
    let fork_comments := fork.issues.flatMap (fun issue =>
      (studentNotes fork_owner issue.notes).map (fun note =>
        validate_submission
          (mk_fork_comment_submission fork_owner fork_path repo_name issue note)))
    let master_comments :=
      if pyFalsyNat ctx.master_project_id then []
      else ctx.master_issues.flatMap (fun issue =>
        (studentNotes fork_owner issue.notes).map (fun note =>
          validate_submission (mk_master_comment_submission ctx.master_project
            fork_owner fork_path repo_name issue note)))
    let mr_subs := process_fork_mrs ctx.master_project fork_owner fork_path
      repo_name ctx.master_project_id fork.merge_requests
    let master_mr_subs :=
      if pyFalsyNat ctx.master_project_id then []
      else fork.master_mrs_from_fork.map (fun mr =>
        validate_submission (mk_master_mr_submission ctx.master_project
          fork_owner fork_path repo_name mr))
    fork_comments ++ master_comments ++ mr_subs ++ master_mr_subs

/-- Three-way code-point comparison of character lists (Python string
ordering). -/
def cmpChars : List Char → List Char → Ordering
  | [], [] => .eq
  | [], _ :: _ => .lt
  | _ :: _, [] => .gt
  | a :: as, b :: bs =>
    if a.toNat < b.toNat then .lt
    else if b.toNat < a.toNat then .gt
    else cmpChars as bs

/-- Python `<=` on strings, as a Boolean (used as the sort order of
`sorted(...)` and `list.sort(key=...)`). -/
def pyStrLeB (a b : String) : Bool := cmpChars a.data b.data ≠ .gt

/-- `sorted(d.keys())`: the keys of an association list in lexicographic
order. -/
def sortedKeys {α : Type} (A : List (String × α)) : List String :=
  (A.map Prod.fst).mergeSort pyStrLeB

/-- The raw sort key of the per-student submission sort:
`x.get('submission_date', '')`. -/
def raw_date_key (s : Submission) : String := s.submission_date.getD ""

/-- Python `<=` on submissions under the raw-date sort key. -/
def dateKeyLeB (a b : Submission) : Bool :=
  pyStrLeB (raw_date_key a) (raw_date_key b)

/-- The `repo_full` of `format_submissions` (gitlab_fetch.py:826-835 and
main.py:494-505): `get('source_repository') or get('repository', 'unknown')`
under Python string truthiness. -/
def repo_full_of (s : Submission) : String :=
  match s.source_repository with
  | some v => if v = "" then s.repository.getD "unknown" else v
  | none => s.repository.getD "unknown"

/-- The grouping key proper: the last `/`-segment of `repo_full` when it
contains a `/`, else the literal `repo_name` field. -/
def group_key (s : Submission) : String :=
  if (repo_full_of s).data.contains '/' then lastSegment (repo_full_of s)
  else s.repo_name.getD "unknown"

/-- One iteration of the grouping loop
`by_project[repo_name][student].append(submission)` on nested
insertion-ordered association lists. -/
def group_step (A : List (String × List (String × List Submission)))
    (s : Submission) : List (String × List (String × List Submission)) :=
  let p := group_key s
  let st := pyStudent s
  let addStudent := fun (B : List (String × List Submission)) =>
    match alistLookup st B with
    | none => B ++ [(st, [s])]
    | some L => alistSet st (L ++ [s]) B
  match alistLookup p A with
  | none => A ++ [(p, addStudent [])]
  | some B => alistSet p (addStudent B) A

/-- The `by_project` nested grouping of `format_submissions`. -/
def by_project (subs : List Submission) :
    List (String × List (String × List Submission)) :=
  subs.foldl group_step []

/-- The traversal order of `format_submissions` as data: projects in sorted
order, students in sorted order within each project, and each student's
submissions sorted ascending by the raw `submission_date` string. -/
def format_grouping (subs : List Submission) :
    List (String × List (String × List Submission)) :=
  let bp := by_project subs
  (sortedKeys bp).map (fun p =>
    let B := (alistLookup p bp).getD []
    (p, (sortedKeys B).map (fun st =>
      (st, ((alistLookup st B).getD []).mergeSort dateKeyLeB))))

/-- Interpretation of a date bound: `some none` when the bound is falsy
(absent, hence skipped), `some (some d)` when it parses as `YYYY-MM-DD`, and
`none` when a given bound does not parse. -/
def parseBound : Option String → Option (Option PyDate)
  | none => some none
  | some ss => if ss = "" then some none else (strptime_Ymd ss).map some

/-- Inclusive lower-bound check on the date component (no bound passes). -/
def withinLower : Option PyDate → PyDate → Bool
  | none, _ => true
  | some sd, d => !dateLt d sd

/-- Inclusive upper-bound check on the date component (no bound passes). -/
def withinUpper : Option PyDate → PyDate → Bool
  | none, _ => true
  | some ed, d => !dateLt ed d

/-- Awareness class of a datetime (aware iff it has a UTC offset); Python
comparisons raise exactly on mixed classes. -/
def tzClass (dt : PyDateTime) : Bool := dt.tzoffset.isSome

/-- The student association list grouped under one project key. -/
def project_students (subs : List Submission) (p : String) :
    List (String × List Submission) :=
  (alistLookup p (by_project subs)).getD []

/-- The submissions grouped under one project key and one student. -/
def bucket (subs : List Submission) (p st : String) : List Submission :=
  (alistLookup st (project_students subs p)).getD []

/-!  Theorems.  First a few shared helper lemmas about the embedding. -/

/-- Validation only fills the three validity fields; every other field of the
submission is unchanged. -/
theorem validate_submission_preserves (s : Submission) :
    (validate_submission s).student = s.student ∧
    (validate_submission s).repo_type = s.repo_type ∧
    (validate_submission s).repository = s.repository ∧
    (validate_submission s).source_repository = s.source_repository ∧
    (validate_submission s).submission_type = s.submission_type :=
  ⟨rfl, rfl, rfl, rfl, rfl⟩

/-- Unequal first characters make strings unequal. -/
theorem str_ne_of_head {a b : String} (h : a.data.head? ≠ b.data.head?) :
    a ≠ b := fun e => h (by rw [e])

/-- The references reason starts with `R`. -/
theorem refs_reason_head (ns : List Nat) :
    (refs_reason ns).data.head? = some 'R' := rfl

/-- Both link reasons start with `L`. -/
theorem link_reason_head (s : Submission) (n : Nat) :
    (link_reason s n).data.head? = some 'L' := by
  unfold link_reason; split <;> rfl

/-- The database-link reason starts with `L`. -/
theorem db_link_reason_head (k : Nat) :
    (db_link_reason k).data.head? = some 'L' := rfl

theorem has_ne_refs (ns : List Nat) : "Has attachment" ≠ refs_reason ns :=
  str_ne_of_head (by rw [refs_reason_head]; decide)

theorem missing_ne_refs (ns : List Nat) :
    "Missing attachment" ≠ refs_reason ns :=
  str_ne_of_head (by rw [refs_reason_head]; decide)

theorem has_ne_link (s : Submission) (n : Nat) :
    "Has attachment" ≠ link_reason s n :=
  str_ne_of_head (by rw [link_reason_head]; decide)

theorem missing_ne_link (s : Submission) (n : Nat) :
    "Missing attachment" ≠ link_reason s n :=
  str_ne_of_head (by rw [link_reason_head]; decide)

/-- C7: `filter_submissions_by_date` with no bounds is the identity on the
input list (missing/unparseable dates are not pre-filtered). -/
theorem c7_filter_no_bounds_identity (subs : List Submission) :
    filter_submissions_by_date subs none none = subs := rfl

/-- C3: `has_media_attachments` returns `has_media` exactly when the URL list
is non-empty; the list is the concatenation, in fixed order, of the markdown
image captures, the direct URL matches and the `/uploads/` matches (duplicates
across rules preserved); empty input yields `(false, [])`. -/
theorem c3_media_detector (t : String) :
    ((has_media_attachments t).1 = true ↔ (has_media_attachments t).2 ≠ []) ∧
    (has_media_attachments t).2 =
      markdown_image_matches t ++ direct_url_matches t ++
        upload_path_matches t ∧
    has_media_attachments "" = (false, []) := by
  refine ⟨?_, ?_, rfl⟩
  · by_cases h : t = ""
    · subst h; simp [has_media_attachments]
    · simp only [has_media_attachments, if_neg h]
      rw [decide_eq_true_eq, List.length_pos]
  · by_cases h : t = ""
    · subst h; rfl
    · simp only [has_media_attachments, if_neg h]

/-- Characterization of `validate_core` on a COMMENT submission. -/
theorem validate_core_comment (s : Submission)
    (h : s.submission_type = some "COMMENT") :
    validate_core s = ((has_media_attachments (comment_text_of s)).1,
      (if (has_media_attachments (comment_text_of s)).1 then
        ["Has attachment"] else ["Missing attachment"]) ++
      (if (has_issue_references (comment_text_of s)).1 then
        [refs_reason (has_issue_references (comment_text_of s)).2] else []) ++
      (match s.issue_number with
        | some n => if n ≠ 0 then [link_reason s n] else []
        | none => [])) := by
  simp only [validate_core, h, Option.getD_some, reduceIte]

/-- Characterization of `validate_core` on a PULL_REQUEST submission. -/
theorem validate_core_pr (s : Submission)
    (h : s.submission_type = some "PULL_REQUEST") :
    validate_core s = ((has_media_attachments (pr_text_of s)).1 &&
        (has_issue_references (pr_text_of s)).1,
      (if (has_media_attachments (pr_text_of s)).1 then
        ["Has attachment"] else ["Missing attachment"]) ++
      (if (has_issue_references (pr_text_of s)).1 then
        [refs_reason (has_issue_references (pr_text_of s)).2]
      else ["No issue references found"]) ++
      (if s.addressed_issues ≠ [] then
        [db_link_reason s.addressed_issues.length] else [])) := by
  simp only [validate_core, h, Option.getD_some, reduceIte]
  rw [if_neg (by decide : ¬("PULL_REQUEST" : String) = "COMMENT")]

/-- C1: a PULL_REQUEST is valid iff its (effective) description has both media
and an issue reference; each missing condition independently invalidates and
appends its reason; `validity_status` mirrors `is_valid`. -/
theorem c1_pull_request_validity (s : Submission)
    (h : s.submission_type = some "PULL_REQUEST") :
    ((validate_submission s).is_valid = some true ↔
      ((has_media_attachments (pr_text_of s)).1 = true ∧
        (has_issue_references (pr_text_of s)).1 = true)) ∧
    ((has_media_attachments (pr_text_of s)).1 = false →
      (validate_submission s).is_valid = some false ∧
      "Missing attachment" ∈ (validate_submission s).validity_reasons) ∧
    ((has_issue_references (pr_text_of s)).1 = false →
      (validate_submission s).is_valid = some false ∧
      "No issue references found" ∈ (validate_submission s).validity_reasons) ∧
    ((validate_submission s).validity_status = some "VALID" ↔
      (validate_submission s).is_valid = some true) ∧
    ((validate_submission s).validity_status = some "INVALID" ↔
      (validate_submission s).is_valid = some false) := by
  have hc := validate_core_pr s h
  cases hm : (has_media_attachments (pr_text_of s)).1 <;>
    cases hr : (has_issue_references (pr_text_of s)).1 <;>
      simp [validate_submission, hc, hm, hr]

/-- C2: a COMMENT is valid iff its (effective) text has media; exactly one of
the attachment reasons is present; an issue reference appends a reason without
affecting validity; a truthy linked issue number appends a reason. -/
theorem c2_comment_validity (s : Submission)
    (h : s.submission_type = some "COMMENT") :
    ((validate_submission s).is_valid = some true ↔
      (has_media_attachments (comment_text_of s)).1 = true) ∧
    ("Has attachment" ∈ (validate_submission s).validity_reasons ↔
      (has_media_attachments (comment_text_of s)).1 = true) ∧
    ("Missing attachment" ∈ (validate_submission s).validity_reasons ↔
      (has_media_attachments (comment_text_of s)).1 = false) ∧
    ((has_issue_references (comment_text_of s)).1 = true →
      refs_reason (has_issue_references (comment_text_of s)).2 ∈
        (validate_submission s).validity_reasons) ∧
    (∀ n, s.issue_number = some n → n ≠ 0 →
      link_reason s n ∈ (validate_submission s).validity_reasons) := by
  have hc := validate_core_comment s h
  rcases hn : s.issue_number with _ | n <;>
    cases hm : (has_media_attachments (comment_text_of s)).1 <;>
      cases hr : (has_issue_references (comment_text_of s)).1 <;>
        simp [validate_submission, hc, hm, hr, hn, has_ne_refs, missing_ne_refs,
          has_ne_link, missing_ne_link] <;>
        · intro hz
          simp [hz, has_ne_link, missing_ne_link]

/-- C10: an absent or empty type-specific text field falls back to the
`description` field for validation, for both COMMENT and PULL_REQUEST. -/
theorem c10_description_fallback :
    (∀ s : Submission, s.submission_type = some "COMMENT" →
      (s.comment_text = none ∨ s.comment_text = some "") →
      comment_text_of s = s.description.getD "" ∧
      ((validate_submission s).is_valid = some true ↔
        (has_media_attachments (s.description.getD "")).1 = true)) ∧
    (∀ s : Submission, s.submission_type = some "PULL_REQUEST" →
      (s.pr_description = none ∨ s.pr_description = some "") →
      pr_text_of s = s.description.getD "" ∧
      ((validate_submission s).is_valid = some true ↔
        ((has_media_attachments (s.description.getD "")).1 = true ∧
          (has_issue_references (s.description.getD "")).1 = true))) := by
  constructor
  · intro s hty hct
    have htext : comment_text_of s = s.description.getD "" := by
      rcases hct with h | h <;> simp [comment_text_of, h, pyOr]
    refine ⟨htext, ?_⟩
    have hc := validate_core_comment s hty
    rw [htext] at hc
    cases hm : (has_media_attachments (s.description.getD "")).1 <;>
      simp [validate_submission, hc, hm]
  · intro s hty hpd
    have htext : pr_text_of s = s.description.getD "" := by
      rcases hpd with h | h <;> simp [pr_text_of, h, pyOr]
    refine ⟨htext, ?_⟩
    have hc := validate_core_pr s hty
    rw [htext] at hc
    cases hm : (has_media_attachments (s.description.getD "")).1 <;>
      cases hr : (has_issue_references (s.description.getD "")).1 <;>
        simp [validate_submission, hc, hm, hr]

/-- The `if`/`elif` accumulation of the merge-request partition equals the two
filters. -/
theorem partition_mrs_eq (mid : Option Nat) (mrs : List MergeRequestRec) :
    partition_mrs mid mrs = (mrs.filter isSelfMR,
      mrs.filter (fun mr => !isSelfMR mr && isToMasterMR mid mr)) := by
  have aux : ∀ (l : List MergeRequestRec)
      (p : List MergeRequestRec × List MergeRequestRec),
      l.foldl (fun p mr =>
        if isSelfMR mr then (p.1 ++ [mr], p.2)
        else if isToMasterMR mid mr then (p.1, p.2 ++ [mr])
        else p) p =
      (p.1 ++ l.filter isSelfMR,
        p.2 ++ l.filter (fun mr => !isSelfMR mr && isToMasterMR mid mr)) := by
    intro l
    induction l with
    | nil => intro p; simp
    | cons mr rest ih =>
      intro p
      by_cases h1 : isSelfMR mr
      · simp [List.foldl_cons, h1, ih, List.filter_cons]
      · by_cases h2 : isToMasterMR mid mr <;>
          simp [List.foldl_cons, h1, h2, ih, List.filter_cons]
  unfold partition_mrs
  rw [aux]
  simp

/-- C4: per-fork merge-request partition: a self-merge (`source == target`) is
emitted as `student_fork` (never `codepath_repo`); otherwise a merge request
targeting the master project is emitted as `codepath_repo` with `repository`
rewritten to the master path and `source_repository` keeping the fork path; a
merge request matching neither condition produces no submission record. -/
theorem c4_mr_partition (master_project fork_owner fork_path repo_name : String)
    (mid : Option Nat) (mrs : List MergeRequestRec) (mr : MergeRequestRec)
    (hmem : mr ∈ mrs) :
    (isSelfMR mr = true →
      validate_submission
          (mk_self_mr_submission fork_owner fork_path repo_name mr) ∈
        process_fork_mrs master_project fork_owner fork_path repo_name mid mrs ∧
      (validate_submission
          (mk_self_mr_submission fork_owner fork_path repo_name mr)).repo_type =
        some "student_fork" ∧
      (validate_submission
          (mk_self_mr_submission fork_owner fork_path repo_name mr)).repo_type ≠
        some "codepath_repo") ∧
    (isSelfMR mr = false → isToMasterMR mid mr = true →
      validate_submission (mk_master_mr_submission master_project fork_owner
          fork_path repo_name mr) ∈
        process_fork_mrs master_project fork_owner fork_path repo_name mid mrs ∧
      (validate_submission (mk_master_mr_submission master_project fork_owner
          fork_path repo_name mr)).repo_type = some "codepath_repo" ∧
      (validate_submission (mk_master_mr_submission master_project fork_owner
          fork_path repo_name mr)).repository = some master_project ∧
      (validate_submission (mk_master_mr_submission master_project fork_owner
          fork_path repo_name mr)).source_repository = some fork_path) ∧
    (isSelfMR mr = false → isToMasterMR mid mr = false →
      process_fork_mrs master_project fork_owner fork_path repo_name mid [mr] =
        []) := by
  refine ⟨?_, ?_, ?_⟩
  · intro hself
    refine ⟨?_, rfl, by simp [validate_submission, mk_self_mr_submission]⟩
    unfold process_fork_mrs
    rw [partition_mrs_eq]
    apply List.mem_append_left
    exact List.mem_map_of_mem _ (List.mem_filter.2 ⟨hmem, hself⟩)
  · intro hself hmaster
    refine ⟨?_, rfl, rfl, rfl⟩
    unfold process_fork_mrs
    rw [partition_mrs_eq]
    apply List.mem_append_right
    exact List.mem_map_of_mem _
      (List.mem_filter.2 ⟨hmem, by simp [hself, hmaster]⟩)
  · intro hself hmaster
    unfold process_fork_mrs
    rw [partition_mrs_eq]
    simp [List.filter_cons, hself, hmaster]

/-- Every submission emitted by the per-fork loop carries the resolved fork
owner as its `student`. -/
theorem process_fork_student_eq (ctx : MasterCtx) (fork : ForkRec)
    (s : Submission) (hs : s ∈ process_fork ctx fork) :
    s.student = some (resolve_fork_owner fork) := by
  unfold process_fork at hs
  cases hid : pyFalsyNat fork.id <;> rw [hid] at hs
  case true => simp at hs
  cases hmid : pyFalsyNat ctx.master_project_id <;>
    simp [hmid, process_fork_mrs, partition_mrs_eq] at hs
  · rcases hs with ⟨i, _, n, _, rfl⟩ | ⟨i, _, n, _, rfl⟩ | ⟨mr, _, rfl⟩ |
      ⟨mr, _, rfl⟩ | ⟨mr, _, rfl⟩ <;> rfl
  · rcases hs with ⟨i, _, n, _, rfl⟩ | ⟨mr, _, rfl⟩ | ⟨mr, _, rfl⟩ <;> rfl

/-- C5 counterexample: a fork whose only owner information is a single-segment
`path_with_namespace` is attributed `"unknown"`, not the first path segment
`"abc"` the claim's fallback chain prescribes. -/
theorem c5_counterexample :
    resolve_fork_owner { path_with_namespace := some "abc" } = "unknown" ∧
    ("unknown" : String) ≠ "abc" := ⟨rfl, by decide⟩

/-- C5 (amended): the student is attributed via the ordered fallback — the
explicit owner username unless absent or the literal sentinel `"unknown"`,
else the namespace name, else the creator username, else the first segment of
`path_with_namespace` when the path has more than one `/`-separated segment,
else the literal `"unknown"`; and a fork with no numeric project id emits no
submissions. -/
theorem c5_owner_fallback_amended :
    (∀ (ctx : MasterCtx) (fork : ForkRec), fork.id = none →
      process_fork ctx fork = []) ∧
    (∀ (ctx : MasterCtx) (fork : ForkRec) (s : Submission),
      s ∈ process_fork ctx fork →
      s.student = some (resolve_fork_owner fork)) ∧
    (∀ (fork : ForkRec) (u : String), fork.owner_username = some u →
      u ≠ "unknown" → resolve_fork_owner fork = u) ∧
    (∀ (fork : ForkRec) (nm : String),
      (fork.owner_username = none ∨ fork.owner_username = some "unknown") →
      fork.namespace_name = some nm → resolve_fork_owner fork = nm) ∧
    (∀ (fork : ForkRec) (cu : String),
      (fork.owner_username = none ∨ fork.owner_username = some "unknown") →
      fork.namespace_name = none → fork.creator_username = some cu →
      resolve_fork_owner fork = cu) ∧
    (∀ (fork : ForkRec) (p : String),
      (fork.owner_username = none ∨ fork.owner_username = some "unknown") →
      fork.namespace_name = none → fork.creator_username = none →
      fork.path_with_namespace = some p →
      (splitOnChar '/' p.data).length > 1 →
      resolve_fork_owner fork = String.mk ((splitOnChar '/' p.data).headD [])) ∧
    (∀ (fork : ForkRec),
      (fork.owner_username = none ∨ fork.owner_username = some "unknown") →
      fork.namespace_name = none → fork.creator_username = none →
      (fork.path_with_namespace = none ∨
        ∃ p, fork.path_with_namespace = some p ∧
          ¬(splitOnChar '/' p.data).length > 1) →
      resolve_fork_owner fork = "unknown") := by
  refine ⟨?_, process_fork_student_eq, ?_, ?_, ?_, ?_, ?_⟩
  · intro ctx fork hid
    unfold process_fork
    rw [hid]
    rfl
  · intro fork u hu hne
    simp [resolve_fork_owner, hu, hne]
  · intro fork nm ho hnm
    rcases ho with h | h <;> simp [resolve_fork_owner, h, hnm]
  · intro fork cu ho hnm hcu
    rcases ho with h | h <;> simp [resolve_fork_owner, h, hnm, hcu]
  · intro fork p ho hnm hcu hp hlen
    rcases ho with h | h <;> simp [resolve_fork_owner, h, hnm, hcu, hp, hlen]
  · intro fork ho hnm hcu hp
    rcases hp with hp | ⟨p, hp, hlen⟩
    · rcases ho with h | h <;> simp [resolve_fork_owner, h, hnm, hcu, hp]
    · rcases ho with h | h <;>
        simp [resolve_fork_owner, h, hnm, hcu, hp, hlen]

/-- C5 witness: the amended fallback and the id-skip evaluated at concrete
forks. -/
theorem c5_owner_fallback_witness :
    process_fork { master_project := "codepath-org/gitlab" }
        { path_with_namespace := some "bob/proj", id := none } = [] ∧
    resolve_fork_owner
        { owner_username := some "alice", path_with_namespace := some "bob/proj" } =
      "alice" ∧
    resolve_fork_owner
        { owner_username := some "unknown", namespace_name := some "ns",
          path_with_namespace := some "bob/proj" } = "ns" ∧
    resolve_fork_owner
        { creator_username := some "carol", path_with_namespace := some "bob/proj" } =
      "carol" ∧
    resolve_fork_owner { path_with_namespace := some "bob/proj" } = "bob" ∧
    resolve_fork_owner { path_with_namespace := some "bobproj" } = "unknown" :=
  ⟨c5_owner_fallback_amended.1 _ _ rfl,
    c5_owner_fallback_amended.2.2.1 _ _ rfl (by decide),
    c5_owner_fallback_amended.2.2.2.1 _ _ (Or.inr rfl) rfl,
    c5_owner_fallback_amended.2.2.2.2.1 _ _ (Or.inl rfl) rfl rfl,
    ((c5_owner_fallback_amended.2.2.2.2.2.1
        { path_with_namespace := some "bob/proj" } "bob/proj" (Or.inl rfl) rfl
        rfl rfl (by decide)).trans (by decide)),
    c5_owner_fallback_amended.2.2.2.2.2.2 _ (Or.inl rfl) rfl rfl
      (Or.inr ⟨_, rfl, by decide⟩)⟩

/-- The start gate evaluates to the spec-level inclusive lower-bound check
whenever the given bound parses. -/
theorem startGate_eval (d : PyDate) (sb : Option String) (sdo : Option PyDate)
    (hs : parseBound sb = some sdo) :
    startGate d sb = .ok (withinLower sdo d) := by
  cases sb with
  | none =>
    simp only [parseBound, Option.some.injEq] at hs
    subst hs; rfl
  | some ss =>
    by_cases hss : ss = ""
    · subst hss
      simp only [parseBound, if_true, eq_self_iff_true, Option.some.injEq] at hs
      subst hs; rfl
    · simp only [parseBound, if_neg hss] at hs
      cases hst : strptime_Ymd ss with
      | none => rw [hst] at hs; simp at hs
      | some sd =>
        rw [hst] at hs
        simp only [Option.map_some', Option.some.injEq] at hs
        subst hs
        simp [startGate, pyFalsyStr, hss, hst, withinLower]

/-- The end gate evaluates to the spec-level inclusive upper-bound check
whenever the given bound parses. -/
theorem endGate_eval (d : PyDate) (eb : Option String) (edo : Option PyDate)
    (he : parseBound eb = some edo) :
    endGate d eb = .ok (withinUpper edo d) := by
  cases eb with
  | none =>
    simp only [parseBound, Option.some.injEq] at he
    subst he; rfl
  | some es =>
    by_cases hes : es = ""
    · subst hes
      simp only [parseBound, if_true, eq_self_iff_true, Option.some.injEq] at he
      subst he; rfl
    · simp only [parseBound, if_neg hes] at he
      cases het : strptime_Ymd es with
      | none => rw [het] at he; simp at he
      | some ed =>
        rw [het] at he
        simp only [Option.map_some', Option.some.injEq] at he
        subst he
        simp [endGate, pyFalsyStr, hes, het, withinUpper]

/-- C6: with at least one (parseable) bound given, the date filter keeps
exactly the submissions whose parsed date component lies inclusively within
the given bounds; submissions with missing or unparseable dates are dropped. -/
theorem c6_date_filter (subs : List Submission) (sb eb : Option String)
    (sdo edo : Option PyDate) (hs : parseBound sb = some sdo)
    (he : parseBound eb = some edo)
    (hne : pyFalsyStr sb = false ∨ pyFalsyStr eb = false) :
    filter_submissions_by_date subs sb eb =
      subs.filter (fun s =>
        match parse_entry s with
        | none => false
        | some dt =>
          withinLower sdo (dateOf dt) && withinUpper edo (dateOf dt)) := by
  unfold filter_submissions_by_date
  have hcond : (pyFalsyStr sb && pyFalsyStr eb) = false := by
    rcases hne with h | h <;> simp [h]
  rw [hcond]
  simp only [Bool.false_eq_true, if_false, reduceIte]
  apply List.filter_congr
  intro s _
  unfold keep_submission
  cases hpe : parse_entry s with
  | none => rfl
  | some dt =>
    simp only [startGate_eval (dateOf dt) sb sdo hs,
      endGate_eval (dateOf dt) eb edo he]
    cases withinLower sdo (dateOf dt) <;> cases withinUpper edo (dateOf dt) <;>
      rfl

/-- C6 witness: the spec example — bounds 2023-12-01 to 2023-12-31 exclude a
submission dated 2023-11-30 and include one dated 2023-12-01T23:59:00Z. -/
theorem c6_date_filter_witness :
    parseBound (some "2023-12-01") = some (some ⟨2023, 12, 1⟩) ∧
    parseBound (some "2023-12-31") = some (some ⟨2023, 12, 31⟩) ∧
    pyFalsyStr (some "2023-12-01") = false ∧
    filter_submissions_by_date
        [{ student := some "a", submission_date := some "2023-11-30" },
         { student := some "a",
           submission_date := some "2023-12-01T23:59:00Z" }]
        (some "2023-12-01") (some "2023-12-31") =
      [{ student := some "a",
         submission_date := some "2023-12-01T23:59:00Z" }] :=
  ⟨by decide, by decide, by decide,
    (c6_date_filter _ (some "2023-12-01") (some "2023-12-31")
      (some ⟨2023, 12, 1⟩) (some ⟨2023, 12, 31⟩) (by decide) (by decide)
      (Or.inl (by decide))).trans (by decide)⟩

/-- Lexicographic comparison is irreflexive. -/
theorem lexNatLt_self (l : List Nat) : lexNatLt l l = false := by
  induction l with
  | nil => rfl
  | cons x xs ih => simp [lexNatLt, ih]

/-- A datetime is not strictly before itself. -/
theorem pyLt_self (d : PyDateTime) : pyLtDT d d = .ok false := by
  unfold pyLtDT
  cases h : d.tzoffset with
  | none => simp [h, dtNaiveLt, lexNatLt_self]
  | some x => simp [h]

/-- A successful comparison implies equal awareness classes. -/
theorem pyLt_class_of_ok (a b : PyDateTime) (r : Bool)
    (h : pyLtDT a b = .ok r) : tzClass a = tzClass b := by
  unfold pyLtDT at h
  unfold tzClass
  cases ha : a.tzoffset <;> cases hb : b.tzoffset <;>
    rw [ha, hb] at h <;> simp_all

/-- Equal awareness classes make the comparison succeed. -/
theorem pyLt_ok_of_class (a b : PyDateTime) (h : tzClass a = tzClass b) :
    ∃ r, pyLtDT a b = .ok r := by
  unfold tzClass at h
  unfold pyLtDT
  cases ha : a.tzoffset <;> cases hb : b.tzoffset <;>
    rw [ha, hb] at h <;> simp_all

/-- Mixed awareness classes make the comparison raise. -/
theorem pyLt_error_of_class (a b : PyDateTime) (h : tzClass a ≠ tzClass b) :
    pyLtDT a b = .error () := by
  unfold tzClass at h
  unfold pyLtDT
  cases ha : a.tzoffset <;> cases hb : b.tzoffset <;>
    rw [ha, hb] at h <;> simp_all

/-- The spec-level minimum keeps the awareness class of the accumulator. -/
theorem spec_min_class (e x : PyDateTime) :
    tzClass (spec_min e x) = tzClass e := by
  unfold spec_min
  cases h : pyLtDT x e with
  | error u => rfl
  | ok r =>
    cases r
    · rfl
    · exact pyLt_class_of_ok x e true h

/-- The spec-level maximum keeps the awareness class of the accumulator. -/
theorem spec_max_class (l x : PyDateTime) :
    tzClass (spec_max l x) = tzClass l := by
  unfold spec_max
  cases h : pyLtDT l x with
  | error u => rfl
  | ok r =>
    cases r
    · rfl
    · exact (pyLt_class_of_ok l x true h).symm

/-- Folded spec-level minimum keeps the class of the seed. -/
theorem foldl_spec_min_class (ds : List PyDateTime) (d : PyDateTime) :
    tzClass (ds.foldl spec_min d) = tzClass d := by
  induction ds generalizing d with
  | nil => rfl
  | cons x xs ih => rw [List.foldl_cons, ih, spec_min_class]

/-- Folded spec-level maximum keeps the class of the seed. -/
theorem foldl_spec_max_class (ds : List PyDateTime) (d : PyDateTime) :
    tzClass (ds.foldl spec_max d) = tzClass d := by
  induction ds generalizing d with
  | nil => rfl
  | cons x xs ih => rw [List.foldl_cons, ih, spec_max_class]

/-- When the running `earliest` and `latest` have the same awareness class
(an invariant of the loop), the loop body acts as the two independent
spec-level running extrema plus a count increment. -/
theorem code_update_spec (i : StudentInfo) (d : PyDateTime)
    (h : tzClass i.earliest = tzClass i.latest) :
    code_update i d =
      ⟨spec_min i.earliest d, spec_max i.latest d, i.count + 1⟩ := by
  unfold code_update spec_min spec_max
  cases hde : pyLtDT d i.earliest with
  | error u =>
    have hcls : tzClass d ≠ tzClass i.earliest := by
      intro hc
      rcases pyLt_ok_of_class d i.earliest hc with ⟨r, hr⟩
      rw [hr] at hde
      cases hde
    have hdl : pyLtDT i.latest d = .error () := by
      apply pyLt_error_of_class
      intro hc
      exact hcls (by rw [← h] at hc; rw [hc])
    rw [hdl]
  | ok ltE =>
    have hcls : tzClass d = tzClass i.earliest :=
      pyLt_class_of_ok d i.earliest ltE hde
    have hdl : ∃ r, pyLtDT i.latest d = .ok r :=
      pyLt_ok_of_class i.latest d (by rw [← h, hcls])
    rcases hdl with ⟨gtL, hdl⟩
    rw [hdl]
    cases ltE <;> cases gtL <;> rfl

/-- The initialization path of the loop body (`earliest = latest = d`,
`count = 0`, then one update with `d` itself) produces `⟨d, d, 1⟩`. -/
theorem code_update_init (d : PyDateTime) :
    code_update ⟨d, d, 0⟩ d = ⟨d, d, 1⟩ := by
  unfold code_update
  rw [show (⟨d, d, 0⟩ : StudentInfo).earliest = d from rfl,
    show (⟨d, d, 0⟩ : StudentInfo).latest = d from rfl, pyLt_self]
  rfl

/-- The spec summary is `none` exactly on the empty date list. -/
theorem spec_none_iff (ds : List PyDateTime) :
    summarize_student_spec ds = none ↔ ds = [] := by
  cases ds <;> simp [summarize_student_spec]

/-- The spec summary's extrema share one awareness class. -/
theorem spec_classes (ds : List PyDateTime) (i : StudentInfo)
    (h : summarize_student_spec ds = some i) :
    tzClass i.earliest = tzClass i.latest := by
  cases ds with
  | nil => cases h
  | cons d rest =>
    simp only [summarize_student_spec, Option.some.injEq] at h
    subst h
    rw [foldl_spec_min_class, foldl_spec_max_class]

/-- Appending one date to the summarized list acts as one spec-level update. -/
theorem spec_append (ds : List PyDateTime) (d : PyDateTime) :
    summarize_student_spec (ds ++ [d]) =
      some (match summarize_student_spec ds with
        | none => ⟨d, d, 1⟩
        | some i => ⟨spec_min i.earliest d, spec_max i.latest d, i.count + 1⟩) := by
  cases ds with
  | nil => simp [summarize_student_spec, spec_min, spec_max, pyLt_self]
  | cons d0 rest =>
    simp [summarize_student_spec, List.foldl_append]

/-- Lookup after inserting a fresh key at the end. -/
theorem alistLookup_append_single {α : Type} (st st' : String) (v : α)
    (A : List (String × α)) :
    alistLookup st (A ++ [(st', v)]) =
      match alistLookup st A with
      | some x => some x
      | none => if st' = st then some v else none := by
  induction A with
  | nil => rfl
  | cons hd tl ih =>
    obtain ⟨k, w⟩ := hd
    by_cases hk : k = st <;> simp [alistLookup, hk, ih]

/-- Updating one key leaves other lookups unchanged. -/
theorem alistLookup_set_ne {α : Type} (st st' : String) (v : α)
    (A : List (String × α)) (h : ¬st' = st) :
    alistLookup st (alistSet st' v A) = alistLookup st A := by
  induction A with
  | nil => rfl
  | cons hd tl ih =>
    obtain ⟨k, w⟩ := hd
    by_cases hk : k = st'
    · subst hk
      simp [alistSet, alistLookup, h]
    · by_cases hk2 : k = st
      · subst hk2
        simp [alistSet, alistLookup, hk]
      · simp [alistSet, alistLookup, hk, hk2, ih]

/-- Updating a present key makes its lookup return the new value. -/
theorem alistLookup_set_self {α : Type} (st : String) (v : α)
    (A : List (String × α)) (h : (alistLookup st A).isSome) :
    alistLookup st (alistSet st v A) = some v := by
  induction A with
  | nil => simp [alistLookup] at h
  | cons hd tl ih =>
    obtain ⟨k, w⟩ := hd
    by_cases hk : k = st
    · simp [alistSet, alistLookup, hk]
    · simp only [alistLookup, hk, if_neg, reduceIte] at h
      simp [alistSet, alistLookup, hk, ih h]

/-- One student's parsed dates after appending one submission. -/
theorem student_parsed_dates_append (st : String) (subs : List Submission)
    (s : Submission) :
    student_parsed_dates st (subs ++ [s]) =
      student_parsed_dates st subs ++
        (if pyStudent s = st then (parse_entry s).toList else []) := by
  unfold student_parsed_dates
  rw [List.filterMap_append]
  congr 1
  by_cases h : pyStudent s = st <;> cases hp : parse_entry s <;>
    simp [List.filterMap, h, hp]

/-- C8: per student, the aggregation dictionary agrees with the spec-level
summary of that student's parseable submission dates (submissions with
missing or unparseable dates excluded, `count` the number of contributing
submissions, extrema by strict comparison with first occurrence winning
ties). -/
theorem c8_student_date_ranges (subs : List Submission) (st : String) :
    alistLookup st (get_student_date_ranges subs) =
      summarize_student_spec (student_parsed_dates st subs) := by
  have step_eq : ∀ (A : List (String × StudentInfo)) (s : Submission),
      gsdr_step A s = match parse_entry s with
        | none => A
        | some d =>
          match alistLookup (pyStudent s) A with
          | none => A ++ [(pyStudent s, code_update ⟨d, d, 0⟩ d)]
          | some i => alistSet (pyStudent s) (code_update i d) A :=
    fun A s => rfl
  induction subs using List.reverseRecOn with
  | nil => rfl
  | append_singleton subs s ih =>
    unfold get_student_date_ranges at ih ⊢
    rw [List.foldl_append, List.foldl_cons, List.foldl_nil,
      student_parsed_dates_append]
    cases hp : parse_entry s with
    | none => rw [step_eq]; simpa [hp] using ih
    | some d =>
      rw [step_eq]
      by_cases hst : pyStudent s = st
      · rw [hp, hst]
        cases hl : alistLookup st (subs.foldl gsdr_step []) with
        | none =>
          simp only [hl]
          rw [alistLookup_append_single, hl]
          have hnil : student_parsed_dates st subs = [] :=
            (spec_none_iff _).1 (by rw [← ih, hl])
          rw [hnil]
          simp [hst, summarize_student_spec, code_update_init]
        | some i =>
          simp only [hl]
          rw [alistLookup_set_self st _ _ (by rw [hl]; rfl)]
          have hspec :
              summarize_student_spec (student_parsed_dates st subs) =
                some i := by
            rw [← ih, hl]
          have hrw : (if True then (some d).toList else []) = [d] := rfl
          rw [hrw, spec_append, hspec,
            code_update_spec i d (spec_classes _ _ hspec)]
      · rw [hp]
        have hrhs : (if pyStudent s = st then (some d).toList else []) = [] := by
          simp [hst]
        rw [hrhs, List.append_nil, ← ih]
        cases hl : alistLookup (pyStudent s) (subs.foldl gsdr_step []) with
        | none =>
          simp only [hl]
          rw [alistLookup_append_single]
          cases alistLookup st (subs.foldl gsdr_step []) <;> simp [hst]
        | some i =>
          simp only [hl]
          rw [alistLookup_set_ne st (pyStudent s) _ _ hst]

/-- A code-point comparison returning `.gt` flips to `.lt` when the arguments
are swapped. -/
theorem cmpChars_gt_asymm : ∀ (a b : List Char),
    cmpChars a b = .gt → cmpChars b a = .lt := by
  intro a
  induction a with
  | nil =>
    intro b h
    cases b <;> simp [cmpChars] at h
  | cons x xs ih =>
    intro b h
    cases b with
    | nil => rfl
    | cons y ys =>
      unfold cmpChars at h ⊢
      by_cases h1 : x.toNat < y.toNat
      · simp [h1] at h
      · by_cases h2 : y.toNat < x.toNat
        · simp [h1, h2]
        · simp only [if_neg h1, if_neg h2] at h
          simp only [if_neg h2, if_neg h1]
          exact ih ys h

/-- Transitivity of the non-strict code-point order. -/
theorem cmpChars_le_trans : ∀ (a b c : List Char),
    cmpChars a b ≠ .gt → cmpChars b c ≠ .gt → cmpChars a c ≠ .gt := by
  intro a
  induction a with
  | nil =>
    intro b c _ _
    cases c <;> simp [cmpChars]
  | cons x xs ih =>
    intro b c h1 h2
    cases b with
    | nil => exact absurd rfl h1
    | cons y ys =>
      cases c with
      | nil => exact absurd rfl h2
      | cons z zs =>
        unfold cmpChars at h1 h2 ⊢
        by_cases hxy : x.toNat < y.toNat
        · by_cases hyz : y.toNat < z.toNat
          · have hxz : x.toNat < z.toNat := Nat.lt_trans hxy hyz
            simp [hxz]
          · by_cases hzy : z.toNat < y.toNat
            · simp [hyz, hzy] at h2
            · have hxz : x.toNat < z.toNat := by omega
              simp [hxz]
        · by_cases hyx : y.toNat < x.toNat
          · simp [hxy, hyx] at h1
          · rw [if_neg hxy, if_neg hyx] at h1
            by_cases hyz : y.toNat < z.toNat
            · have hxz : x.toNat < z.toNat := by omega
              simp [hxz]
            · by_cases hzy : z.toNat < y.toNat
              · simp [hyz, hzy] at h2
              · rw [if_neg hyz, if_neg hzy] at h2
                have h3 : ¬x.toNat < z.toNat := by omega
                have h4 : ¬z.toNat < x.toNat := by omega
                rw [if_neg h3, if_neg h4]
                exact ih ys zs h1 h2

/-- The Python string order is transitive. -/
theorem pyStrLeB_trans (a b c : String) (h1 : pyStrLeB a b = true)
    (h2 : pyStrLeB b c = true) : pyStrLeB a c = true := by
  simp only [pyStrLeB, ne_eq, decide_eq_true_eq] at *
  exact cmpChars_le_trans _ _ _ h1 h2

/-- The Python string order is total. -/
theorem pyStrLeB_total (a b : String) : (pyStrLeB a b || pyStrLeB b a) = true := by
  simp only [pyStrLeB, ne_eq, Bool.or_eq_true, decide_eq_true_eq]
  by_cases h : cmpChars a.data b.data = .gt
  · right
    simp [cmpChars_gt_asymm _ _ h]
  · left
    exact h

/-- The raw-date submission order is transitive. -/
theorem dateKeyLeB_trans (a b c : Submission) (h1 : dateKeyLeB a b = true)
    (h2 : dateKeyLeB b c = true) : dateKeyLeB a c = true :=
  pyStrLeB_trans _ _ _ h1 h2

/-- The raw-date submission order is total. -/
theorem dateKeyLeB_total (a b : Submission) :
    (dateKeyLeB a b || dateKeyLeB b a) = true :=
  pyStrLeB_total _ _

/-- Appending one submission appends it to exactly its own (project, student)
bucket. -/
theorem bucket_append (subs : List Submission) (s : Submission) (p st : String) :
    bucket (subs ++ [s]) p st =
      bucket subs p st ++
        (if group_key s = p ∧ pyStudent s = st then [s] else []) := by
  unfold bucket project_students by_project
  rw [List.foldl_append, List.foldl_cons, List.foldl_nil]
  have step_eq : group_step (subs.foldl group_step []) s =
      match alistLookup (group_key s) (subs.foldl group_step []) with
      | none => subs.foldl group_step [] ++ [(group_key s, [(pyStudent s, [s])])]
      | some B =>
        alistSet (group_key s)
          (match alistLookup (pyStudent s) B with
            | none => B ++ [(pyStudent s, [s])]
            | some L => alistSet (pyStudent s) (L ++ [s]) B)
          (subs.foldl group_step []) := rfl
  rw [step_eq]
  by_cases hp : group_key s = p
  · subst hp
    cases hl : alistLookup (group_key s) (subs.foldl group_step []) with
    | none =>
      simp only [hl]
      rw [alistLookup_append_single, hl]
      by_cases hst : pyStudent s = st
      · subst hst
        simp [alistLookup, hl]
      · simp [alistLookup, hst, hl]
    | some B =>
      simp only [hl]
      rw [alistLookup_set_self _ _ _ (by rw [hl]; rfl)]
      by_cases hst : pyStudent s = st
      · subst hst
        cases hls : alistLookup (pyStudent s) B with
        | none =>
          simp only [Option.getD_some]
          rw [alistLookup_append_single, hls]
          simp [hls, hl]
        | some L =>
          simp only [Option.getD_some]
          rw [alistLookup_set_self _ _ _ (by rw [hls]; rfl)]
          simp [hls, hl]
      · cases hls : alistLookup (pyStudent s) B with
        | none =>
          simp only [Option.getD_some]
          rw [alistLookup_append_single]
          cases alistLookup st B <;> simp [hst, hl]
        | some L =>
          simp only [Option.getD_some]
          rw [alistLookup_set_ne _ _ _ _ hst]
          simp [hl, hst]
  · have hrhs : (if group_key s = p ∧ pyStudent s = st then [s] else []) = [] := by
      simp [hp]
    rw [hrhs, List.append_nil]
    cases hl : alistLookup (group_key s) (subs.foldl group_step []) with
    | none =>
      simp only [hl]
      rw [alistLookup_append_single]
      cases alistLookup p (subs.foldl group_step []) <;> simp [hp]
    | some B =>
      simp only [hl]
      rw [alistLookup_set_ne _ _ _ _ hp]

/-- A (project, student) bucket holds exactly the submissions with that
grouping key and student, in input order. -/
theorem bucket_eq_filter (subs : List Submission) (p st : String) :
    bucket subs p st = subs.filter
      (fun s => decide (group_key s = p) && decide (pyStudent s = st)) := by
  induction subs using List.reverseRecOn with
  | nil => rfl
  | append_singleton subs s ih =>
    rw [bucket_append, ih, List.filter_append]
    congr 1
    by_cases h1 : group_key s = p <;> by_cases h2 : pyStudent s = st <;>
      simp [List.filter, h1, h2]

/-- The students list paired with a project key in `format_grouping` is the
sorted per-student view of that project's buckets. -/
theorem format_grouping_mem (subs : List Submission) (p : String)
    (students : List (String × List Submission))
    (h : (p, students) ∈ format_grouping subs) :
    students = (sortedKeys (project_students subs p)).map
      (fun st => (st, (bucket subs p st).mergeSort dateKeyLeB)) := by
  unfold format_grouping at h
  rcases List.mem_map.1 h with ⟨q, _, heq⟩
  rw [Prod.mk.injEq] at heq
  obtain ⟨rfl, rfl⟩ := heq
  rfl

/-- C9 counterexample: a submission whose `source_repository` has no `/` is
grouped under its literal `repo_name` field (`"xyz"`), not under the last path
segment of `source_repository` (`"abc"`) as the claim's precedence states. -/
theorem c9_counterexample :
    group_key { source_repository := some "abc", repo_name := some "xyz" } =
      "xyz" ∧ ("xyz" : String) ≠ "abc" := ⟨rfl, by decide⟩

/-- C9 (amended): `repo_full` is `source_repository` when present and
non-empty, else `repository` (defaulting to `"unknown"`); the grouping key is
the last `/`-segment of `repo_full` when it contains a `/`, otherwise the
literal `repo_name` field; projects and students are iterated in lexicographic
order; within a student, submissions are sorted ascending by the raw
`submission_date` string; and each listed submission belongs to exactly its
(grouping key, student) bucket. -/
theorem c9_formatter_amended :
    (∀ (s : Submission) (v : String), s.source_repository = some v →
      ¬v = "" → repo_full_of s = v) ∧
    (∀ s : Submission,
      (s.source_repository = none ∨ s.source_repository = some "") →
      repo_full_of s = s.repository.getD "unknown") ∧
    (∀ s : Submission, (repo_full_of s).data.contains '/' = true →
      group_key s = lastSegment (repo_full_of s)) ∧
    (∀ s : Submission, (repo_full_of s).data.contains '/' = false →
      group_key s = s.repo_name.getD "unknown") ∧
    (∀ subs : List Submission,
      ((format_grouping subs).map Prod.fst).Pairwise
        (fun a b => pyStrLeB a b = true)) ∧
    (∀ (subs : List Submission) (p : String)
      (students : List (String × List Submission)),
      (p, students) ∈ format_grouping subs →
      (students.map Prod.fst).Pairwise (fun a b => pyStrLeB a b = true)) ∧
    (∀ (subs : List Submission) (p : String)
      (students : List (String × List Submission)) (st : String)
      (L : List Submission),
      (p, students) ∈ format_grouping subs → (st, L) ∈ students →
      L.Pairwise (fun a b => dateKeyLeB a b = true) ∧
      ∀ s ∈ L, group_key s = p ∧ pyStudent s = st ∧ s ∈ subs) := by
  refine ⟨?_, ?_, ?_, ?_, ?_, ?_, ?_⟩
  · intro s v hv hne
    simp [repo_full_of, hv, hne]
  · intro s hv
    rcases hv with h | h <;> simp [repo_full_of, h]
  · intro s hc
    unfold group_key
    rw [hc]
    rfl
  · intro s hc
    unfold group_key
    rw [hc]
    rfl
  · intro subs
    unfold format_grouping
    rw [List.map_map]
    have hmap : (Prod.fst ∘ fun p =>
        (p, (sortedKeys ((alistLookup p (by_project subs)).getD [])).map
          (fun st =>
            (st, ((alistLookup st
              ((alistLookup p (by_project subs)).getD [])).getD
                []).mergeSort dateKeyLeB)))) = fun p : String => p := rfl
    rw [hmap, List.map_id']
    exact List.sorted_mergeSort pyStrLeB_trans pyStrLeB_total _
  · intro subs p students h
    rw [format_grouping_mem subs p students h, List.map_map]
    have hmap : (Prod.fst ∘ fun st =>
        (st, (bucket subs p st).mergeSort dateKeyLeB)) =
      fun st : String => st := rfl
    rw [hmap, List.map_id']
    exact List.sorted_mergeSort pyStrLeB_trans pyStrLeB_total _
  · intro subs p students st L h1 h2
    rw [format_grouping_mem subs p students h1] at h2
    rcases List.mem_map.1 h2 with ⟨q, _, heq⟩
    rw [Prod.mk.injEq] at heq
    obtain ⟨hq, hL⟩ := heq
    subst hq
    subst hL
    constructor
    · exact List.sorted_mergeSort dateKeyLeB_trans dateKeyLeB_total _
    · intro s hsL
      have hsb : s ∈ bucket subs p q := List.mem_mergeSort.1 hsL
      rw [bucket_eq_filter] at hsb
      rcases List.mem_filter.1 hsb with ⟨hmem, hcond⟩
      simp only [Bool.and_eq_true, decide_eq_true_eq] at hcond
      exact ⟨hcond.1, hcond.2, hmem⟩

/-- `format_grouping` on a one-element list, evaluated. -/
theorem format_grouping_singleton (s : Submission) :
    format_grouping [s] = [(group_key s, [(pyStudent s, [s])])] := by
  unfold format_grouping by_project
  rw [List.foldl_cons, List.foldl_nil]
  have hstep : group_step [] s = [(group_key s, [(pyStudent s, [s])])] := rfl
  rw [hstep]
  have hkeys : sortedKeys [(group_key s, [(pyStudent s, [s])])] =
      [group_key s] := by
    unfold sortedKeys
    rw [show [(group_key s, [(pyStudent s, [s])])].map Prod.fst =
      [group_key s] from rfl]
    exact List.mergeSort_singleton _
  have hb : alistLookup (group_key s) [(group_key s, [(pyStudent s, [s])])] =
      some [(pyStudent s, [s])] := by
    simp [alistLookup]
  have hkeys2 : sortedKeys [(pyStudent s, [s])] = [pyStudent s] := by
    unfold sortedKeys
    rw [show [(pyStudent s, ([s] : List Submission))].map Prod.fst =
      [pyStudent s] from rfl]
    exact List.mergeSort_singleton _
  have hb2 : alistLookup (pyStudent s) [(pyStudent s, [s])] = some [s] := by
    simp [alistLookup]
  simp only [hkeys, List.map_cons, List.map_nil, hb, Option.getD_some, hkeys2,
    hb2, List.mergeSort_singleton]

/-- C9 witness: the amended grouping evaluated on a concrete submission list. -/
theorem c9_formatter_witness :
    ({ student := some "b", source_repository := some "u1/projZ",
       submission_date := some "2023-01-02" } : Submission).source_repository =
      some "u1/projZ" ∧
    ¬("u1/projZ" : String) = "" ∧
    (repo_full_of { student := some "b", source_repository := some "u1/projZ",
                    submission_date := some "2023-01-02" }).data.contains '/' =
      true ∧
    group_key { student := some "b", source_repository := some "u1/projZ",
                submission_date := some "2023-01-02" } =
      lastSegment (repo_full_of
        { student := some "b", source_repository := some "u1/projZ",
          submission_date := some "2023-01-02" }) ∧
    ("projZ", [("b", [({ student := some "b",
                         source_repository := some "u1/projZ",
                         submission_date := some "2023-01-02" } :
        Submission)])]) ∈
      format_grouping [{ student := some "b",
                         source_repository := some "u1/projZ",
                         submission_date := some "2023-01-02" }] ∧
    (List.Pairwise (fun a b => dateKeyLeB a b = true)
        [({ student := some "b", source_repository := some "u1/projZ",
            submission_date := some "2023-01-02" } : Submission)] ∧
      ∀ s ∈ [({ student := some "b", source_repository := some "u1/projZ",
                submission_date := some "2023-01-02" } : Submission)],
        group_key s = "projZ" ∧ pyStudent s = "b" ∧
        s ∈ [({ student := some "b", source_repository := some "u1/projZ",
                submission_date := some "2023-01-02" } : Submission)]) :=
  by
  refine ⟨rfl, by decide, by decide,
    c9_formatter_amended.2.2.1 _ (by decide), ?_, ?_⟩
  · rw [format_grouping_singleton]
    decide
  · exact c9_formatter_amended.2.2.2.2.2.2
      [{ student := some "b", source_repository := some "u1/projZ",
         submission_date := some "2023-01-02" }] "projZ"
      [("b", [{ student := some "b", source_repository := some "u1/projZ",
                submission_date := some "2023-01-02" }])] "b"
      [{ student := some "b", source_repository := some "u1/projZ",
         submission_date := some "2023-01-02" }]
      (by rw [format_grouping_singleton]; decide) (by decide)

/-- C1 witness: a PULL_REQUEST whose description has both media and an issue
reference is VALID. -/
theorem c1_pull_request_witness :
    ({ submission_type := some "PULL_REQUEST",
       pr_description := some "fixes #2 ![s](u.png)" } : Submission).submission_type =
      some "PULL_REQUEST" ∧
    (validate_submission
      { submission_type := some "PULL_REQUEST",
        pr_description := some "fixes #2 ![s](u.png)" }).is_valid =
      some true ∧
    (validate_submission
      { submission_type := some "PULL_REQUEST",
        pr_description := some "fixes #2 ![s](u.png)" }).validity_status =
      some "VALID" :=
  ⟨rfl,
    (c1_pull_request_validity _ rfl).1.mpr ⟨by decide, by decide⟩,
    (c1_pull_request_validity _ rfl).2.2.2.1.mpr
      ((c1_pull_request_validity _ rfl).1.mpr ⟨by decide, by decide⟩)⟩

/-- C2 witness: a COMMENT with attachment-bearing text is valid with reason
"Has attachment"; one without media is invalid with reason
"Missing attachment". -/
theorem c2_comment_witness :
    ({ submission_type := some "COMMENT",
       comment_text := some "![x](a.png)" } : Submission).submission_type =
      some "COMMENT" ∧
    (validate_submission
      { submission_type := some "COMMENT",
        comment_text := some "![x](a.png)" }).is_valid = some true ∧
    "Has attachment" ∈ (validate_submission
      { submission_type := some "COMMENT",
        comment_text := some "![x](a.png)" }).validity_reasons ∧
    "Missing attachment" ∈ (validate_submission
      { submission_type := some "COMMENT",
        comment_text := some "no media" }).validity_reasons :=
  ⟨rfl,
    (c2_comment_validity _ rfl).1.mpr (by decide),
    (c2_comment_validity _ rfl).2.1.mpr (by decide),
    (c2_comment_validity _ rfl).2.2.1.mpr (by decide)⟩

/-- C4 witness: the three partition cases evaluated on concrete merge
requests. -/
theorem c4_mr_partition_witness :
    ({ iid := 1, title := "t", created_at := "d", source_project_id := some 5,
       target_project_id := some 5 } : MergeRequestRec) ∈
      [({ iid := 1, title := "t", created_at := "d",
          source_project_id := some 5,
          target_project_id := some 5 } : MergeRequestRec),
        { iid := 2, title := "u", created_at := "d",
          source_project_id := some 5, target_project_id := some 1 }] ∧
    validate_submission (mk_self_mr_submission "o" "f" "r"
        { iid := 1, title := "t", created_at := "d",
          source_project_id := some 5, target_project_id := some 5 }) ∈
      process_fork_mrs "mp" "o" "f" "r" (some 1)
        [{ iid := 1, title := "t", created_at := "d",
           source_project_id := some 5, target_project_id := some 5 },
         { iid := 2, title := "u", created_at := "d",
           source_project_id := some 5, target_project_id := some 1 }] ∧
    (validate_submission (mk_master_mr_submission "mp" "o" "f" "r"
        { iid := 2, title := "u", created_at := "d",
          source_project_id := some 5,
          target_project_id := some 1 })).repository = some "mp" ∧
    process_fork_mrs "mp" "o" "f" "r" (some 1)
      [{ iid := 3, title := "v", created_at := "d",
         source_project_id := some 5, target_project_id := some 9 }] = [] :=
  ⟨by decide,
    ((c4_mr_partition "mp" "o" "f" "r" (some 1) _ _ (by decide)).1
      (by decide)).1,
    ((c4_mr_partition "mp" "o" "f" "r" (some 1)
        [{ iid := 1, title := "t", created_at := "d",
           source_project_id := some 5, target_project_id := some 5 },
         { iid := 2, title := "u", created_at := "d",
           source_project_id := some 5, target_project_id := some 1 }]
        { iid := 2, title := "u", created_at := "d",
          source_project_id := some 5, target_project_id := some 1 }
        (by decide)).2.1 (by decide) (by decide)).2.2.1,
    (c4_mr_partition "mp" "o" "f" "r" (some 1)
        [{ iid := 3, title := "v", created_at := "d",
           source_project_id := some 5, target_project_id := some 9 }]
        { iid := 3, title := "v", created_at := "d",
          source_project_id := some 5, target_project_id := some 9 }
        (by decide)).2.2 (by decide) (by decide)⟩

/-- C10 witness: a COMMENT with empty `comment_text` but media in
`description` is valid; a PULL_REQUEST with empty `pr_description` validates
its `description`. -/
theorem c10_description_fallback_witness :
    comment_text_of
      { submission_type := some "COMMENT", comment_text := some "",
        description := some "![x](a.png)" } = "![x](a.png)" ∧
    (validate_submission
      { submission_type := some "COMMENT", comment_text := some "",
        description := some "![x](a.png)" }).is_valid = some true ∧
    pr_text_of
      { submission_type := some "PULL_REQUEST",
        description := some "fixes #2 ![s](u.png)" } =
      "fixes #2 ![s](u.png)" :=
  ⟨(c10_description_fallback.1 _ rfl (Or.inr rfl)).1,
    (c10_description_fallback.1 _ rfl (Or.inr rfl)).2.mpr (by decide),
    (c10_description_fallback.2 _ rfl (Or.inl rfl)).1⟩
